import Mathlib

/-!
Shallow embedding of the expense-bot core (`main.py` of BOT_GastosComunes):
amount parsing, date resolution, structured and narrative transaction
extraction, the Excel merge step, point deletion, and the weekly/monthly
report aggregation.  Monetary amounts are modelled as exact rationals
(the Python code uses `float`, but every comparison the claims make is
between short decimal values where binary rounding plays no role), and
timestamps are modelled as rational "absolute day numbers": the integer
part is a proleptic-Gregorian day count and the fractional part is the
time of day, so noon on a day is the day number plus 1/2.  Python strings
are modelled as `List Char` inside the algorithms, with `String` only at
the boundaries.
-/

attribute [local semireducible] Rat.add Rat.mul Rat.inv Rat.sub Rat.ofScientific

/-- A timestamp: days since the calendar origin, with the fractional part
representing the time of day. -/
abbrev Instante := ℚ

/-- Gregorian leap-year test, as Python's `datetime` uses it. -/
def esBisiesto (y : ℕ) : Bool :=
  y % 4 = 0 && (y % 100 ≠ 0 || y % 400 = 0)

/-- Length of month `m` in year `y`. -/
def diasMes (y m : ℕ) : ℕ :=
  if m = 2 then (if esBisiesto y then 29 else 28)
  else if m = 4 ∨ m = 6 ∨ m = 9 ∨ m = 11 then 30
  else 31

/-- Days elapsed in year `y` before the first day of month `m`. -/
def diasAntesMes (y m : ℕ) : ℕ :=
  (List.range (m - 1)).foldl (fun acc i => acc + diasMes y (i + 1)) 0

/-- Absolute day number of a calendar date (1/1/1 is day 1). -/
def numeroDia (y m d : ℕ) : ℕ :=
  365 * (y - 1) + ((y - 1) / 4 - (y - 1) / 100) + (y - 1) / 400 + diasAntesMes y m + d

/-- The reference instant `datetime.now()`: a calendar date plus the
time-of-day as a fraction of a day in `[0, 1)`. -/
structure Ahora where
  y : ℕ
  m : ℕ
  d : ℕ
  frac : ℚ
deriving DecidableEq

/-- The instant as a rational day count. -/
def Ahora.aQ (a : Ahora) : ℚ := (numeroDia a.y a.m a.d : ℚ) + a.frac

/-- `now.replace(hour=12, minute=0, second=0, microsecond=0)`. -/
def Ahora.mediodia (a : Ahora) : ℚ := (numeroDia a.y a.m a.d : ℚ) + 1/2

/-- Numeric value of a digit string. -/
def valorDigitos (l : List Char) : ℕ :=
  l.foldl (fun acc c => 10 * acc + (c.toNat - 48)) 0

/-- Python `float()` restricted to the strings reachable in this program
(after the separator cleanup every amount string consists of digits, dots
and commas, with the commas already turned into dots): defined exactly when
there is at least one digit and at most one dot, in which case the value is
the decimal the string spells. -/
def floatPy (l : List Char) : Option ℚ :=
  if l.all (fun c => c.isDigit || c = '.') ∧ l.count '.' ≤ 1 ∧ l.any Char.isDigit then
    some ((valorDigitos (l.takeWhile (· ≠ '.')) : ℚ) +
      (valorDigitos ((l.dropWhile (· ≠ '.')).drop 1) : ℚ) /
        (10 : ℚ) ^ ((l.dropWhile (· ≠ '.')).drop 1).length)
  else none

/-- Whitespace trim (Python `str.strip()`). -/
def recortaLista (l : List Char) : List Char :=
  ((l.dropWhile Char.isWhitespace).reverse.dropWhile Char.isWhitespace).reverse

/-- Python `str.lower()` over the characters that occur here. -/
def aMinusculas (l : List Char) : List Char := l.map Char.toLower

/-- `str.split(sep)`-style splitting at every character satisfying `p`
(empty pieces included, as in Python). -/
def divideLista (p : Char → Bool) : List Char → List (List Char)
  | [] => [[]]
  | c :: resto =>
      let r := divideLista p resto
      if p c then [] :: r
      else
        match r with
        | [] => [[c]]
        | x :: xs => (c :: x) :: xs

/-- Structured-mode amount cleanup (`main.py` 213-221): with both separators
present all dots are stripped and the comma becomes the decimal point; with
only commas the comma becomes the decimal point; otherwise the string is
left as is.  Then `float()`. -/
def limpiarMonto (s : List Char) : Option ℚ :=
  let limpio :=
    if s.contains ',' && s.contains '.' then
      (s.filter (· ≠ '.')).map (fun c => if c = ',' then '.' else c)
    else if s.contains ',' then
      s.map (fun c => if c = ',' then '.' else c)
    else s
  floatPy limpio

/-- Narrative-mode amount cleanup (`main.py` 120):
`cantidad_str.strip().replace('.', '').replace(',', '.')` then `float()`. -/
def limpiarMontoAudio (s : List Char) : Option ℚ :=
  floatPy (((recortaLista s).filter (· ≠ '.')).map (fun c => if c = ',' then '.' else c))

/-- A numeric field of a date string: all digits, length between `minLen`
and `maxLen`, value between `lo` and `hi` (the bounds the CPython
`_strptime` regular expressions impose on `%d`, `%m`, `%y`, `%Y`). -/
def campoNum (minLen maxLen lo hi : ℕ) (l : List Char) : Option ℕ :=
  if (¬ l.isEmpty) ∧ l.all Char.isDigit ∧ minLen ≤ l.length ∧ l.length ≤ maxLen ∧
      lo ≤ valorDigitos l ∧ valorDigitos l ≤ hi then
    some (valorDigitos l)
  else none

/-- `datetime.strptime(s, "%d<sep>%m")`: day and month fields, validated
against strptime's implicit default year 1900 (not a leap year). -/
def strptimeDM (sep : Char) (s : List Char) : Option (ℕ × ℕ) :=
  match divideLista (· == sep) s with
  | [ds, ms] => do
      let d ← campoNum 1 2 1 31 ds
      let m ← campoNum 1 2 1 12 ms
      if d ≤ diasMes 1900 m then some (d, m) else none
  | _ => none

/-- `datetime.strptime(s, "%d<sep>%m<sep>%y")` (`dosDigitos = true`, with
CPython's 69-pivot two-digit-year mapping) or `"...%Y"` (four digits). -/
def strptimeDMA (sep : Char) (dosDigitos : Bool) (s : List Char) : Option (ℕ × ℕ × ℕ) :=
  match divideLista (· == sep) s with
  | [ds, ms, ys] => do
      let d ← campoNum 1 2 1 31 ds
      let m ← campoNum 1 2 1 12 ms
      let yv ← if dosDigitos then campoNum 2 2 0 99 ys else campoNum 4 4 0 9999 ys
      let y := if dosDigitos then (if yv ≤ 68 then 2000 + yv else 1900 + yv) else yv
      if d ≤ diasMes y m then some (d, m, y) else none
  | _ => none

/-- `fecha_str.split(sep)[-1]`. -/
def ultimoCampo (sep : Char) (s : List Char) : List Char :=
  ((divideLista (· == sep) s).getLast?).getD s

/-- One `%d/%m`-style attempt of `_parsear_fecha_texto` (`main.py` 141-151):
assume the current year, and roll back one year when that lands more than a
day in the future. -/
def intentaDM (a : Ahora) (sep : Char) (s : List Char) : Option ℚ :=
  (strptimeDM sep s).map (fun dm =>
    let temp : ℚ := (numeroDia a.y dm.2 dm.1 : ℚ) + 1/2
    let yUsar := if temp > a.aQ + 1 then a.y - 1 else a.y
    (numeroDia yUsar dm.2 dm.1 : ℚ) + 1/2)

/-- One full-date attempt of `_parsear_fecha_texto` (`main.py` 152-166).
The "Fecha futura no permitida" `raise ValueError` sits inside the same
`try` whose `except ValueError: continue` guards this format attempt, so a
too-far-future date does not abort the call: it merely makes the attempt
fail and the loop move on — modelled by returning `none`. -/
def intentaDMA (a : Ahora) (sep : Char) (dosDigitos : Bool) (s : List Char) : Option ℚ := do
  let (d, m, y) ← strptimeDMA sep dosDigitos s
  let y2 := if (ultimoCampo '/' s).length = 2 ∨ (ultimoCampo '-' s).length = 2 then
      (if y < 70 then y + 2000 else if y < 100 then y + 1900 else y)
    else y
  if d ≤ diasMes y2 m then
    let final : ℚ := (numeroDia y2 m d : ℚ) + 1/2
    if final > a.aQ + 3 then none else some final
  else none

/-- Failures of the date resolver.  `fechaFutura` mirrors the
"Fecha futura no permitida" `raise` in the source; as modelled in
`intentaDMA` that raise is swallowed by the surrounding `except`, so the
resolver below can never actually return it. -/
inductive FechaError where
  | formatoNoSoportado (s : String)
  | fechaFutura (s : String)
deriving DecidableEq

/-- `_parsear_fecha_texto` (`main.py` 135-167): `ayer`/`hoy` literals, then
`%d/%m`, `%d-%m`, `%d/%m/%y`, `%d-%m-%y`, `%d/%m/%Y`, `%d-%m-%Y` in that
order, first success winning; everything else ends in the final
"Formato fecha no soportado" error. -/
def parsearFechaTexto (a : Ahora) (s0 : List Char) : Except FechaError ℚ :=
  let s := aMinusculas (recortaLista s0)
  if s = ("ayer").toList then .ok ((numeroDia a.y a.m a.d : ℚ) - 1 + 1/2)
  else if s = ("hoy").toList then .ok ((numeroDia a.y a.m a.d : ℚ) + 1/2)
  else
    match intentaDM a '/' s <|> intentaDM a '-' s
      <|> intentaDMA a '/' true s <|> intentaDMA a '-' true s
      <|> intentaDMA a '/' false s <|> intentaDMA a '-' false s with
    | some f => .ok f
    | none => .error (.formatoNoSoportado (String.mk s))

/-- One extracted transaction (the dict built at `main.py` 127-130 and
234-237; `Fecha` is kept as the timestamp it formats). -/
structure Transaccion where
  tipo : String
  monto : ℚ
  descripcion : String
  usuario : String
  fecha : ℚ
deriving DecidableEq

/-- The per-line errors accumulated in `errores` (`main.py` 207, 224, 230),
each carrying the 1-based line number and the offending fragment of the
corresponding f-string. -/
inductive LineaError where
  | formatoIncorrecto (linea : ℕ) (fragmento : String)
  | montoInvalido (linea : ℕ) (monto : String)
  | fechaInvalida (linea : ℕ) (fecha : String)
deriving DecidableEq

/-- The character class `[\d.,]` of the amount group. -/
def claseMonto (c : Char) : Bool := c.isDigit || c = '.' || c = ','

/-- Case-insensitive literal test at the head of a character list. -/
def empiezaConCI (pat l : List Char) : Bool :=
  decide ((l.take pat.length).map Char.toLower = pat)

/-- Python `str.capitalize()`: first character upper-cased, the rest
lower-cased. -/
def capitalizaPy : List Char → List Char
  | [] => []
  | c :: resto => c.toUpper :: resto.map Char.toLower

/-- Right-hand whitespace trim. -/
def recortaDerecha (l : List Char) : List Char :=
  (l.reverse.dropWhile Char.isWhitespace).reverse

/-- The tail `(?:\s+\((.+)\))?\s*$` of the line regex, checked after a
candidate description: either mandatory whitespace, an opening parenthesis
and a greedy date group closing at the last non-whitespace character (which
must be `)`), or — the optional group absent — only whitespace may remain.
Returns `some (some fecha)`, `some none`, or `none` when neither branch
matches at this split point. -/
def revisaFecha (resto : List Char) : Option (Option (List Char)) :=
  let ws := resto.takeWhile Char.isWhitespace
  match resto.drop ws.length with
  | '(' :: dentro =>
      if 1 ≤ ws.length then
        let nucleo := recortaDerecha dentro
        if nucleo.getLast? = some ')' ∧ 2 ≤ nucleo.length then
          some (some nucleo.dropLast)
        else if resto.all Char.isWhitespace then some none else none
      else if resto.all Char.isWhitespace then some none else none
  | _ => if resto.all Char.isWhitespace then some none else none

/-- The lazy `(.+?)` description group: grow the description one character
at a time (it must be non-empty) until the rest of the line matches
`revisaFecha`; the shortest such split wins, as laziness dictates. -/
def buscaDescFecha (acum : List Char) : List Char → Option (List Char × Option (List Char))
  | [] => none
  | c :: resto =>
      match revisaFecha resto with
      | some r => some (acum ++ [c], r)
      | none => buscaDescFecha (acum ++ [c]) resto

/-- The structured-mode line regex of `main.py` 190:
`^\s*([\d.,]+)\s+(?:en|de|para)\s+(.+?)(?:\s+\((.+)\))?\s*$` with
`re.IGNORECASE`.  Returns the amount string, the description and the
optional parenthesised date. -/
def matchLinea (l : List Char) : Option (List Char × List Char × Option (List Char)) :=
  let l1 := l.dropWhile Char.isWhitespace
  let monto := l1.takeWhile claseMonto
  let l2 := l1.drop monto.length
  let ws1 := l2.takeWhile Char.isWhitespace
  let l3 := l2.drop ws1.length
  let conecta : Option (List Char) :=
    if empiezaConCI (['e', 'n']) l3 then some (l3.drop 2)
    else if empiezaConCI (['d', 'e']) l3 then some (l3.drop 2)
    else if empiezaConCI (['p', 'a', 'r', 'a']) l3 then some (l3.drop 4)
    else none
  if monto.isEmpty ∨ ws1.isEmpty then none
  else
    match conecta with
    | none => none
    | some l4 =>
        let ws2 := l4.takeWhile Char.isWhitespace
        if ws2.isEmpty then none
        else
          match buscaDescFecha [] (l4.drop ws2.length) with
          | none => none
          | some (desc, fecha) => some (monto, desc, fecha)

/-- The body of the per-line loop of `_procesar_y_guardar_gasto_texto`
(`main.py` 201-237): match the grammar, clean and check the amount, resolve
the date (defaulting to `hoy`), and build the transaction dict. -/
def procesaLinea (a : Ahora) (usuario : String) (i : ℕ) (linea : List Char) :
    Sum Transaccion LineaError :=
  match matchLinea linea with
  | none => .inr (.formatoIncorrecto i (String.mk linea))
  | some (montoStr, descStr, fechaRaw) =>
      let fechaStr : List Char := fechaRaw.getD (("hoy").toList)
      match limpiarMonto montoStr with
      | none => .inr (.montoInvalido i (String.mk montoStr))
      | some monto =>
          if monto ≤ 0 then .inr (.montoInvalido i (String.mk montoStr))
          else
            match parsearFechaTexto a (recortaLista fechaStr) with
            | .error _ => .inr (.fechaInvalida i (String.mk fechaStr))
            | .ok fecha =>
                .inl { tipo := "gasto", monto := monto,
                       descripcion := String.mk (capitalizaPy (recortaLista descStr)),
                       usuario := usuario, fecha := fecha }

/-- The accumulation loop over the candidate lines, starting at 1-based
line number `i`; successes and errors are collected in order, each line
processed independently of the others. -/
def procesaLineas (a : Ahora) (usuario : String) :
    ℕ → List (List Char) → List Transaccion × List LineaError
  | _, [] => ([], [])
  | i, linea :: resto =>
      let r := procesaLineas a usuario (i + 1) resto
      match procesaLinea a usuario i linea with
      | .inl t => (t :: r.1, r.2)
      | .inr e => (r.1, e :: r.2)

/-- `re.split(r'[.\n]+', texto)` followed by stripping and dropping empty
candidates (`main.py` 192). -/
def divideLineas (s : String) : List (List Char) :=
  ((divideLista (fun c => c == '.' || c == '\n') s.toList).map recortaLista).filter
    (fun x => ¬ x.isEmpty)

/-- The extraction part of `_procesar_y_guardar_gasto_texto`: split the
message into candidate lines and process each. -/
def procesaMensaje (a : Ahora) (usuario : String) (texto : String) :
    List Transaccion × List LineaError :=
  procesaLineas a usuario 1 (divideLineas texto)

/-- `unicodedata.normalize('NFKD', c)` followed by the ASCII-ignore encode,
for the characters that can reach it: ASCII is kept, the accented Spanish
vowels and eñe decompose to their base letter, anything else is dropped. -/
def quitaAcento (c : Char) : Option Char :=
  if c.toNat < 128 then some c
  else if c = 'á' ∨ c = 'Á' then some 'a'
  else if c = 'é' ∨ c = 'É' then some 'e'
  else if c = 'í' ∨ c = 'Í' then some 'i'
  else if c = 'ó' ∨ c = 'Ó' then some 'o'
  else if c = 'ú' ∨ c = 'Ú' ∨ c = 'ü' ∨ c = 'Ü' then some 'u'
  else if c = 'ñ' ∨ c = 'Ñ' then some 'n'
  else none

/-- `normalizar_texto` (`main.py` 104-107): lower-case, then strip
diacritics down to ASCII. -/
def normalizarTexto (s : String) : List Char :=
  (s.toList.map Char.toLower).filterMap quitaAcento

/-- The two narrative trigger verbs of the pattern
`\b(compre|gaste)\b[^\d]*([\d\.,]+)(.*?)(?=\b(?:compre|gaste)\b|$)`. -/
inductive Verbo where
  | compre
  | gaste
deriving DecidableEq

def letrasVerbo : Verbo → List Char
  | .compre => ['c', 'o', 'm', 'p', 'r', 'e']
  | .gaste => ['g', 'a', 's', 't', 'e']

/-- The regex word-character class `\w` over the normalized (ASCII) text. -/
def esCaracterPalabra (c : Char) : Bool := c.isAlphanum || c = '_'

/-- One alternative of the trigger alternation: the verb `v` at the head of
`l`, word-bounded on both sides (`prev` is the character just before this
position, `none` at the start of the text). -/
def pruebaVerbo (prev : Option Char) (l : List Char) (v : Verbo) :
    Option (Verbo × List Char) :=
  let limiteIzq : Bool := match prev with
    | none => true
    | some p => ! esCaracterPalabra p
  let pat := letrasVerbo v
  let limiteDer : Bool := match (l.drop pat.length).head? with
    | none => true
    | some c => ! esCaracterPalabra c
  if limiteIzq && decide (l.take pat.length = pat) && limiteDer then
    some (v, l.drop pat.length)
  else none

/-- A word-bounded trigger verb at the head of `l` (`compre` tried first,
as in the regex alternation; the two literals can never match the same
position anyway). -/
def verboAqui (prev : Option Char) (l : List Char) : Option (Verbo × List Char) :=
  match pruebaVerbo prev l .compre with
  | some r => some r
  | none => pruebaVerbo prev l .gaste

/-- First word-bounded trigger occurrence in `l` (the leftmost-match rule
of `re.finditer`); returns the verb and the text after it. -/
def buscaVerbo (prev : Option Char) : List Char → Option (Verbo × List Char)
  | [] => none
  | c :: resto =>
      match verboAqui prev (c :: resto) with
      | some r => some r
      | none => buscaVerbo (some c) resto

/-- The lazy `(.*?)(?=\b(?:compre|gaste)\b|$)` description group: the
characters before the next word-bounded trigger (or all of them), plus that
trigger when present. -/
def divideEnVerbo (prev : Option Char) : List Char → List Char × Option (Verbo × List Char)
  | [] => ([], none)
  | c :: resto =>
      match verboAqui prev (c :: resto) with
      | some r => ([], some r)
      | none =>
          let (d, s) := divideEnVerbo (some c) resto
          (c :: d, s)

def esSeparadorDecimal (c : Char) : Bool := c = '.' || c = ','

/-- The suffix of `l` starting at its last `.` or `,`, if any. -/
def desdeUltimoSeparador : List Char → Option (List Char)
  | [] => none
  | c :: resto =>
      match desdeUltimoSeparador resto with
      | some r => some r
      | none => if esSeparadorDecimal c then some (c :: resto) else none

/-- The greedy `[^\d]*([\d\.,]+)` of the narrative pattern: skip to the
first digit when there is one (the greedy `[^\d]*` cannot cross a digit),
otherwise backtrack to the last `.`/`,`; the amount group then takes the
maximal run of `[\d.,]`.  `none` when no amount can be matched (the regex
then finds no further match anywhere in this suffix). -/
def tomaCantidad (resto : List Char) : Option (List Char × List Char) :=
  if resto.any Char.isDigit then
    let desde := resto.dropWhile (fun c => ! c.isDigit)
    let cant := desde.takeWhile claseMonto
    some (cant, desde.drop cant.length)
  else
    match desdeUltimoSeparador resto with
    | some desde =>
        let cant := desde.takeWhile claseMonto
        some (cant, desde.drop cant.length)
    | none => none

/-- One narrative regex match as `finditer` yields them. -/
structure Coincidencia where
  verbo : Verbo
  cantidad : List Char
  descr : List Char
deriving DecidableEq

/-- The successive `finditer` matches, starting just after a matched
trigger `v`; `fuel` bounds the recursion (each step strictly shortens the
text, so `length + 1` is always enough). -/
def escanea : ℕ → Verbo → List Char → List Coincidencia
  | 0, _, _ => []
  | fuel + 1, v, resto =>
      match tomaCantidad resto with
      | none => []
      | some (cant, despues) =>
          match divideEnVerbo cant.getLast? despues with
          | (descr, none) => [⟨v, cant, descr⟩]
          | (descr, some (v2, resto2)) => ⟨v, cant, descr⟩ :: escanea fuel v2 resto2

/-- Helper for `colapsaEspacios`: `dentro` records whether the previous
character belonged to a whitespace run already emitted as one space. -/
def colapsaEspaciosAux : Bool → List Char → List Char
  | _, [] => []
  | dentro, c :: resto =>
      if c.isWhitespace then
        if dentro then colapsaEspaciosAux true resto
        else ' ' :: colapsaEspaciosAux true resto
      else c :: colapsaEspaciosAux false resto

/-- `re.sub(r'\s+', ' ', …)`: collapse every whitespace run to one space. -/
def colapsaEspacios (l : List Char) : List Char := colapsaEspaciosAux false l

/-- Description cleanup of `procesar_texto_audio` (`main.py` 121-123):
strip, drop leading non-word characters, collapse whitespace, capitalize,
and fall back to the sentinel when empty. -/
def limpiaDescripcionAudio (l : List Char) : String :=
  let paso := colapsaEspacios ((recortaLista l).dropWhile (fun c => ! esCaracterPalabra c))
  let cap := capitalizaPy paso
  if cap.isEmpty then "Sin descripción" else String.mk cap

/-- `procesar_texto_audio` (`main.py` 111-133): normalize, scan for the
trigger-verb matches, and keep the matches whose amount survives
`float()`; each kept match becomes a transaction dated `datetime.now()`. -/
def procesarTextoAudio (ahoraQ : ℚ) (texto usuario : String) : List Transaccion :=
  let norm := normalizarTexto texto
  match buscaVerbo none norm with
  | none => []
  | some (v, resto) =>
      (escanea (resto.length + 1) v resto).filterMap (fun m =>
        match limpiarMontoAudio m.cantidad with
        | none => none
        | some cantidad =>
            some { tipo := match m.verbo with | .compre => "compra" | .gaste => "gasto",
                   monto := cantidad,
                   descripcion := limpiaDescripcionAudio m.descr,
                   usuario := usuario, fecha := ahoraQ })

/-- One row of the persisted Excel store, in its canonical column order
`Fecha, Usuario, Tipo, Monto, Descripción`.  `fecha` is `none` for a `NaT`
produced by `pd.to_datetime(..., errors='coerce')`; amounts are modelled as
already numeric (every row this bot writes has a numeric `Monto`). -/
structure Registro where
  fecha : Option ℚ
  usuario : String
  tipo : String
  monto : ℚ
  descripcion : String
deriving DecidableEq

/-- A freshly extracted transaction as a store row. -/
def transaccionARegistro (t : Transaccion) : Registro :=
  { fecha := some t.fecha, usuario := t.usuario, tipo := t.tipo,
    monto := t.monto, descripcion := t.descripcion }

/-- The `sort_values(by='Fecha', na_position='first')` order: `NaT` before
everything, otherwise by date. -/
def fechaLe (x y : Option ℚ) : Bool :=
  match x, y with
  | none, _ => true
  | some _, none => false
  | some a, some b => decide (a ≤ b)

/-- `guardar_en_excel` (`main.py` 262-338) on a readable store: with no new
transactions nothing is written; otherwise the existing rows and the new
ones are concatenated and the result is sorted by `Fecha` ascending with
unknown dates first, and written back in full.  Row identity is purely
positional: `to_excel(index=False)` persists no index, so a re-read assigns
each row its 0-based position. -/
def leFecha (r s : Registro) : Prop := fechaLe r.fecha s.fecha = true

instance : DecidableRel leFecha :=
  fun a b => inferInstanceAs (Decidable (fechaLe a.fecha b.fecha = true))

instance : IsTotal Registro leFecha where
  total a b := by
    unfold leFecha fechaLe
    rcases a.fecha with _ | x <;> rcases b.fecha with _ | y <;> simp
    exact le_total x y

instance : IsTrans Registro leFecha where
  trans a b c := by
    unfold leFecha fechaLe
    rcases a.fecha with _ | x <;> rcases b.fecha with _ | y <;> rcases c.fecha with _ | z <;>
      simp
    exact le_trans

def guardarEnExcel (existente : List Registro) (nuevas : List Transaccion) : List Registro :=
  if nuevas.isEmpty then existente
  else (existente ++ nuevas.map transaccionARegistro).insertionSort leFecha

/-- Pair each element with its position, starting at `i` (used both for
`df['original_index'] = df.index` and for 1-based line numbering). -/
def enumera {α : Type} : ℕ → List α → List (ℕ × α)
  | _, [] => []
  | i, r :: resto => (i, r) :: enumera (i + 1) resto

/-- The listing filter of `eliminar_gasto_start` (`main.py` 710-724): date
present (the `dropna`) and within the last 30 days. -/
def registroReciente (ahoraQ : ℚ) (par : ℕ × Registro) : Bool :=
  match par.2.fecha with
  | none => false
  | some f => decide (ahoraQ - 30 ≤ f)

/-- `sort_values(by='Fecha', ascending=False)` on the filtered view. -/
def fechaDescLe (x y : ℕ × Registro) : Bool :=
  decide ((y.2.fecha).getD 0 ≤ (x.2.fecha).getD 0)

/-- `eliminar_gasto_start` (`main.py` 697-741): the numbered deletion menu —
rows of the current store paired with their original positional index,
restricted to the last 30 days and ordered most recent first.  The list
shown to the user is this list; the frozen `gastos_a_eliminar_indices` are
its first components, in display order. -/
def leFechaDesc (x y : ℕ × Registro) : Prop := fechaDescLe x y = true

instance : DecidableRel leFechaDesc :=
  fun a b => inferInstanceAs (Decidable (fechaDescLe a b = true))

def eliminarGastoStart (ahoraQ : ℚ) (almacen : List Registro) : List (ℕ × Registro) :=
  ((enumera 0 almacen).filter (registroReciente ahoraQ)).insertionSort leFechaDesc

/-- Outcomes of `eliminar_gasto_confirmar` (`main.py` 749-819). -/
inductive Confirmacion where
  | numeroInvalido
  | seleccionCaducada
  | eliminado (gasto : Registro) (nuevo : List Registro)
deriving DecidableEq

/-- `eliminar_gasto_confirmar`: bounds-check the chosen number against the
frozen index list, re-read the store, and delete by original index — which,
after `pd.read_excel`, is simply the 0-based row position, so the
"still exists" check `index_to_delete in df_completo.index` is just a
bounds check against the store as it is *now*. -/
def eliminarGastoConfirmar (indices : List ℕ) (n : ℤ) (almacen : List Registro) :
    Confirmacion :=
  if 1 ≤ n ∧ n ≤ (indices.length : ℤ) then
    match indices[(n - 1).toNat]? with
    | none => .numeroInvalido
    | some idx =>
        match almacen[idx]? with
        | none => .seleccionCaducada
        | some g => .eliminado g (almacen.eraseIdx idx)
  else .numeroInvalido

/-- The report kind filter: `Tipo.str.lower().isin(['gasto', 'compra'])`. -/
def tipoContable (r : Registro) : Bool :=
  decide (aMinusculas r.tipo.toList = ("gasto").toList) ||
  decide (aMinusculas r.tipo.toList = ("compra").toList)

/-- The weekly-report row filter (`main.py` 594-610): drop rows without a
valid date, then keep contable rows dated on or after the week start.
There is no upper bound. -/
def gastosSemanaDf (inicio : ℚ) (df : List Registro) : List Registro :=
  (df.filter (fun r => r.fecha.isSome)).filter (fun r =>
    decide (inicio ≤ r.fecha.getD 0) && tipoContable r)

/-- The monthly-report row filter (`main.py` 655-671): like the weekly one
but bounded above by the start of the next month (not by "now"). -/
def gastosMesDf (inicio fin : ℚ) (df : List Registro) : List Registro :=
  (df.filter (fun r => r.fecha.isSome)).filter (fun r =>
    decide (inicio ≤ r.fecha.getD 0) && decide (r.fecha.getD 0 < fin) && tipoContable r)

/-- `Descripción_Norm`: `str.lower().str.strip()`. -/
def descNorm (r : Registro) : List Char := recortaLista (aMinusculas r.descripcion.toList)

/-- Lexicographic comparison of character lists (the order pandas uses on
string group keys). -/
def listaLe : List Char → List Char → Bool
  | [], _ => true
  | _ :: _, [] => false
  | a :: as, b :: bs => if a = b then listaLe as bs else decide (a < b)

/-- The group keys of `groupby('Descripción_Norm')` (pandas sorts the keys
ascending). -/
def leClave (a b : List Char) : Prop := listaLe a b = true

instance : DecidableRel leClave :=
  fun a b => inferInstanceAs (Decidable (listaLe a b = true))

def clavesGrupo (l : List Registro) : List (List Char) :=
  ((l.map descNorm).dedup).insertionSort leClave

/-- One aggregated group: the summed `Monto` and the first original-case
`Descripción` of the rows in the group. -/
def resumenGrupo (l : List Registro) (clave : List Char) : ℚ × String :=
  (((l.filter (fun r => descNorm r == clave)).map Registro.monto).sum,
   ((l.find? (fun r => descNorm r == clave)).map Registro.descripcion).getD "")

/-- The per-concept breakdown, sorted by summed amount descending
(`sort_values('Monto_Total', ascending=False)`). -/
def leMontoDesc (x y : List Char × ℚ × String) : Prop := y.2.1 ≤ x.2.1

instance : DecidableRel leMontoDesc :=
  fun a b => inferInstanceAs (Decidable (b.2.1 ≤ a.2.1))

instance : IsTotal (List Char × ℚ × String) leMontoDesc where
  total a b := le_total b.2.1 a.2.1

instance : IsTrans (List Char × ℚ × String) leMontoDesc where
  trans _ _ _ h h2 := le_trans h2 h

def detallesReporte (l : List Registro) : List (List Char × ℚ × String) :=
  ((clavesGrupo l).map (fun k => (k, resumenGrupo l k))).insertionSort leMontoDesc

/-- The report total. -/
def totalReporte (l : List Registro) : ℚ := (l.map Registro.monto).sum

/-- `gasto_semanal` (`main.py` 572-628), as (total, breakdown); the window
start `inicio_semana` is computed upstream from "now" and taken here as a
parameter. -/
def gastoSemanal (inicio : ℚ) (df : List Registro) : ℚ × List (List Char × ℚ × String) :=
  (totalReporte (gastosSemanaDf inicio df), detallesReporte (gastosSemanaDf inicio df))

/-- `gasto_mensual` (`main.py` 636-687), as (total, breakdown). -/
def gastoMensual (inicio fin : ℚ) (df : List Registro) : ℚ × List (List Char × ℚ × String) :=
  (totalReporte (gastosMesDf inicio fin df), detallesReporte (gastosMesDf inicio fin df))

/-! Helper lemmas. -/

instance {e b : Type} [DecidableEq e] [DecidableEq b] : DecidableEq (Except e b) :=
  fun x y =>
    match x, y with
    | .ok u, .ok v => if h : u = v then isTrue (by rw [h]) else isFalse (by simp [h])
    | .error u, .error v => if h : u = v then isTrue (by rw [h]) else isFalse (by simp [h])
    | .ok _, .error _ => isFalse (by simp)
    | .error _, .ok _ => isFalse (by simp)

theorem floatPy_noNeg {l : List Char} {q : ℚ} (h : floatPy l = some q) : 0 ≤ q := by
  unfold floatPy at h
  split at h
  · injection h with h2
    rw [← h2]
    positivity
  · exact absurd h (by simp)

theorem mem_enumera {α : Type} :
    ∀ (i : ℕ) (l : List α) (j : ℕ) (e : α),
      (j, e) ∈ enumera i l → i ≤ j ∧ l[j - i]? = some e := by
  intro i l
  induction l generalizing i with
  | nil => intro j e h; exact absurd h (by simp [enumera])
  | cons r resto ih =>
      intro j e h
      unfold enumera at h
      rcases List.mem_cons.mp h with h1 | h2
      · rw [Prod.mk.injEq] at h1
        obtain ⟨rfl, rfl⟩ := h1
        simp
      · obtain ⟨hle, hget⟩ := ih (i + 1) j e h2
        refine ⟨le_trans (Nat.le_succ i) hle, ?_⟩
        have : j - i = (j - (i + 1)) + 1 := by omega
        rw [this, List.getElem?_cons_succ]
        exact hget

/-- C1: the spec claims that when an amount string contains both `.` and
`,`, the separator occurring last is the decimal one, and that both
`"1.234,56 on rent"` and `"1,234.56 on rent"` yield 1234.56.  In the code
the comma is always the decimal separator when both occur, so
`"1,234.56"` parses to 1.23456; and, at message level, candidate lines are
split on `.`, so the structured line `"1.234,56 en rent"` yields the single
amount 234.56, not 1234.56. -/
theorem c1_contraejemplo :
    limpiarMonto (("1,234.56").toList) = some (1.23456 : ℚ) ∧
    (1.23456 : ℚ) ≠ (1234.56 : ℚ) ∧
    (procesaMensaje ⟨2026, 10, 12, 1/3⟩ ("P") ("1.234,56 en rent")).1.map Transaccion.monto
      = [(234.56 : ℚ)] ∧
    (234.56 : ℚ) ≠ (1234.56 : ℚ) := by
  refine ⟨by decide, by decide, by decide, by decide⟩

/-- C1 (amended): when both separators occur the cleanup strips every `.`
and turns the `,` into the decimal point regardless of their order, so
`"1.234,56"` → 1234.56 but `"1,234.56"` → 1.23456; and since the message is
split into candidate lines at every `.`, the message `"1.234,56 en rent"`
produces a format error for the fragment `"1"` and one entry of amount
234.56, while `"1,234.56 en rent"` produces a format error for `"1,234"`
and one entry of amount 56. -/
theorem c1_amended :
    limpiarMonto (("1.234,56").toList) = some (1234.56 : ℚ) ∧
    limpiarMonto (("1,234.56").toList) = some (1.23456 : ℚ) ∧
    (procesaMensaje ⟨2026, 10, 12, 1/3⟩ ("P") ("1.234,56 en rent")).1.map Transaccion.monto
      = [(234.56 : ℚ)] ∧
    (procesaMensaje ⟨2026, 10, 12, 1/3⟩ ("P") ("1.234,56 en rent")).2
      = [.formatoIncorrecto 1 ("1")] ∧
    (procesaMensaje ⟨2026, 10, 12, 1/3⟩ ("P") ("1,234.56 en rent")).1.map Transaccion.monto
      = [(56 : ℚ)] ∧
    (procesaMensaje ⟨2026, 10, 12, 1/3⟩ ("P") ("1,234.56 en rent")).2
      = [.formatoIncorrecto 1 ("1,234")] := by
  refine ⟨by decide, by decide, by decide, by decide, by decide, by decide⟩

/-- C3: the claim says every valid structured line `"<amount> <connector>
<desc>"` without a date yields exactly one entry carrying the parsed amount
and today's noon, for every amount the Amount Parser accepts including ones
containing `.`.  The bot's own help text even offers
`"1200.50 en supermercado"`, and `limpiarMonto` does accept `"1200.50"`
(third conjunct) — but the message is split on `.` first, so that line
yields a format error for `"1200"` plus one entry of amount 50, not one
entry of 1200.50. -/
theorem c3_entrada_fallida :
    (procesaMensaje ⟨2026, 10, 12, 1/3⟩ ("P") ("1200.50 en supermercado")).1
      = [⟨"gasto", 50, "Supermercado", "P", (numeroDia 2026 10 12 : ℚ) + 1/2⟩] ∧
    (procesaMensaje ⟨2026, 10, 12, 1/3⟩ ("P") ("1200.50 en supermercado")).2
      = [.formatoIncorrecto 1 ("1200")] ∧
    limpiarMonto (("1200.50").toList) = some (1200.50 : ℚ) := by
  refine ⟨by decide, by decide, by decide⟩

/-- C4: the claim says a full-date token more than 3 days ahead of "now"
fails with `FutureDateRejected`, distinct from `UnsupportedDateFormat`.
The token `"25/12/2099"` parses under `%d/%m/%Y` (first conjunct) and lies
more than 3 days ahead of the reference now (second conjunct), yet the
resolver reports the generic "Formato fecha no soportado" error, because
the future-date `raise` is swallowed by the `except ValueError: continue`
of its own format loop. -/
theorem c4_entrada_fallida :
    strptimeDMA '/' false (("25/12/2099").toList) = some (25, 12, 2099) ∧
    ((numeroDia 2099 12 25 : ℚ) + 1/2 > (Ahora.mk 2026 10 12 (1/3)).aQ + 3) ∧
    parsearFechaTexto ⟨2026, 10, 12, 1/3⟩ (("25/12/2099").toList)
      = .error (.formatoNoSoportado ("25/12/2099")) ∧
    FechaError.formatoNoSoportado ("25/12/2099") ≠ .fechaFutura ("25/12/2099") := by
  refine ⟨by decide, by decide, by decide, by decide⟩

/-- C2: the spec claims the identity frozen at listing time is re-looked-up
at confirmation so that, whenever the store changed and the identity no
longer designates the listed entry, confirmation fails with
`StaleSelection`.  The frozen identity is really a row *position*: listing
the two-entry store shows entry `b` under number 2 with frozen index 1;
after the store is replaced by three different rows, confirmation of
number 2 happily deletes the row now sitting at position 1 — an entry
different from `b` — instead of failing. -/
theorem c2_contraejemplo :
    eliminarGastoStart 100 [⟨some 99, "u", "gasto", 10, "a"⟩, ⟨some 98, "u", "gasto", 20, "b"⟩]
      = [(0, ⟨some 99, "u", "gasto", 10, "a"⟩), (1, ⟨some 98, "u", "gasto", 20, "b"⟩)] ∧
    eliminarGastoConfirmar [0, 1] 2
        [⟨some 97, "u", "gasto", 1, "x"⟩, ⟨some 96, "u", "gasto", 2, "y"⟩,
         ⟨some 95, "u", "gasto", 3, "z"⟩]
      = .eliminado ⟨some 96, "u", "gasto", 2, "y"⟩
          [⟨some 97, "u", "gasto", 1, "x"⟩, ⟨some 95, "u", "gasto", 3, "z"⟩] ∧
    (Registro.mk (some 96) ("u") ("gasto") 2 ("y")) ≠ ⟨some 98, "u", "gasto", 20, "b"⟩ := by
  refine ⟨by decide, by decide, by decide⟩

/-- C2 (amended): the identity frozen at listing time is the 0-based row
position in the store as last saved; at confirmation the store is re-read
and the deletion fails with the stale-selection error exactly when that
position is out of bounds of the *current* store; when the position still
exists, the row now at that position is deleted — whether or not it is the
entry that was listed. -/
theorem c2_amended (indices : List ℕ) (n : ℤ) (almacen : List Registro) (idx : ℕ)
    (h1 : 1 ≤ n) (h2 : n ≤ (indices.length : ℤ))
    (h3 : indices[(n - 1).toNat]? = some idx) :
    (∀ g, almacen[idx]? = some g →
      eliminarGastoConfirmar indices n almacen = .eliminado g (almacen.eraseIdx idx)) ∧
    (almacen[idx]? = none →
      eliminarGastoConfirmar indices n almacen = .seleccionCaducada) := by
  constructor
  · intro g hg
    unfold eliminarGastoConfirmar
    rw [if_pos ⟨h1, h2⟩, h3]
    simp [hg]
  · intro hnone
    unfold eliminarGastoConfirmar
    rw [if_pos ⟨h1, h2⟩, h3]
    simp [hnone]

/-- Witness for C2 (amended), at a concrete store and selection. -/
theorem c2_amended_testigo :
    eliminarGastoConfirmar [0, 1] 2 [⟨some 1, "u", "g", 1, "p"⟩, ⟨some 2, "u", "g", 2, "q"⟩]
        = .eliminado ⟨some 2, "u", "g", 2, "q"⟩ [⟨some 1, "u", "g", 1, "p"⟩] ∧
    eliminarGastoConfirmar [0, 5] 2 [⟨some 1, "u", "g", 1, "p"⟩, ⟨some 2, "u", "g", 2, "q"⟩]
        = .seleccionCaducada := by
  constructor
  · exact (c2_amended [0, 1] 2 [⟨some 1, "u", "g", 1, "p"⟩, ⟨some 2, "u", "g", 2, "q"⟩] 1
      (by decide) (by decide) (by decide)).1 ⟨some 2, "u", "g", 2, "q"⟩ (by decide)
  · exact (c2_amended [0, 5] 2 [⟨some 1, "u", "g", 1, "p"⟩, ⟨some 2, "u", "g", 2, "q"⟩] 5
      (by decide) (by decide) (by decide)).2 (by decide)

theorem lt_length_de_getElem? {α : Type} {l : List α} {k : ℕ} {x : α}
    (h : l[k]? = some x) : k < l.length := by
  by_contra hc
  rw [List.getElem?_eq_none (Nat.le_of_not_lt hc)] at h
  exact Option.noConfusion h

/-- The fold over candidate lines, decomposed line by line. -/
theorem procesaLineas_descompone (a : Ahora) (usuario : String) :
    ∀ (lineas : List (List Char)) (i : ℕ),
      (procesaLineas a usuario i lineas).1
          = (enumera i lineas).filterMap
              (fun p => (procesaLinea a usuario p.1 p.2).getLeft?) ∧
      (procesaLineas a usuario i lineas).2
          = (enumera i lineas).filterMap
              (fun p => (procesaLinea a usuario p.1 p.2).getRight?) := by
  intro lineas
  induction lineas with
  | nil => intro i; simp [procesaLineas, enumera]
  | cons l resto ih =>
      intro i
      obtain ⟨ih1, ih2⟩ := ih (i + 1)
      unfold procesaLineas enumera
      cases h : procesaLinea a usuario i l with
      | inl t => simp [List.filterMap_cons, h, Sum.getLeft?, Sum.getRight?, ih1, ih2]
      | inr e => simp [List.filterMap_cons, h, Sum.getLeft?, Sum.getRight?, ih1, ih2]

/-- C8: in structured mode every line of the message is processed
independently: the saved transactions are exactly the successful per-line
results (in order), and the reported errors are exactly the per-line
failures, each already tagged with its 1-based line number and offending
fragment — so no failing line ever aborts the rest of the batch, and the
response reports the two lists separately. -/
theorem c8_lineas_independientes (a : Ahora) (usuario texto : String) :
    (procesaMensaje a usuario texto).1
        = (enumera 1 (divideLineas texto)).filterMap
            (fun p => (procesaLinea a usuario p.1 p.2).getLeft?) ∧
    (procesaMensaje a usuario texto).2
        = (enumera 1 (divideLineas texto)).filterMap
            (fun p => (procesaLinea a usuario p.1 p.2).getRight?) := by
  unfold procesaMensaje
  exact procesaLineas_descompone a usuario (divideLineas texto) 1

/-- C6: the spec claims existing entries keep their original `record_id`s
across a merge.  The only row identity the program has is the row position
in the saved file (no identifier column is ever written), and merging a
new, earlier-dated entry re-sorts the store: the single existing row sits
at position 0 before the merge and at position 1 after it. -/
theorem c6_contraejemplo :
    guardarEnExcel [] [⟨"gasto", 10, "a", "u", 5⟩] = [⟨some 5, "u", "gasto", 10, "a"⟩] ∧
    guardarEnExcel [⟨some 5, "u", "gasto", 10, "a"⟩] [⟨"gasto", 20, "b", "u", 3⟩]
      = [⟨some 3, "u", "gasto", 20, "b"⟩, ⟨some 5, "u", "gasto", 10, "a"⟩] ∧
    ([⟨some 5, "u", "gasto", 10, "a"⟩] : List Registro).indexOf ⟨some 5, "u", "gasto", 10, "a"⟩
      = 0 ∧
    (guardarEnExcel [⟨some 5, "u", "gasto", 10, "a"⟩] [⟨"gasto", 20, "b", "u", 3⟩]).indexOf
      ⟨some 5, "u", "gasto", 10, "a"⟩ = 1 := by
  refine ⟨by decide, by decide, by decide, by decide⟩

/-- C6 (amended): the merge concatenates the existing rows with the new
ones and sorts the result by date ascending with unknown dates first (the
output is a permutation of the concatenation, sorted under `leFecha`); row
identity is the post-sort 0-based position, freshly assigned at every save
rather than preserved.  Merging 3 new entries into an empty store yields
exactly those 3 rows sorted by date ascending, their positions 0, 1, 2 all
distinct. -/
theorem c6_amended (existente : List Registro) (nuevas : List Transaccion) :
    (guardarEnExcel existente nuevas).Perm (existente ++ nuevas.map transaccionARegistro) ∧
    (¬ nuevas.isEmpty = true → (guardarEnExcel existente nuevas).Sorted leFecha) ∧
    guardarEnExcel []
        [⟨"gasto", 1, "x", "u", 3⟩, ⟨"gasto", 2, "y", "u", 1⟩, ⟨"gasto", 3, "z", "u", 2⟩]
      = [⟨some 1, "u", "gasto", 2, "y"⟩, ⟨some 2, "u", "gasto", 3, "z"⟩,
         ⟨some 3, "u", "gasto", 1, "x"⟩] := by
  refine ⟨?_, ?_, by decide⟩
  · unfold guardarEnExcel
    split
    · next h => simp [List.isEmpty_iff.mp h]
    · exact List.perm_insertionSort _ _
  · intro h
    unfold guardarEnExcel
    rw [if_neg h]
    exact List.sorted_insertionSort _ _

/-- Witness for C6 (amended) at a concrete store and batch. -/
theorem c6_amended_testigo :
    (guardarEnExcel [] [⟨"gasto", 1, "x", "u", 3⟩]).Sorted leFecha ∧
    (guardarEnExcel [⟨some 9, "u", "g", 1, "a"⟩] [⟨"gasto", 1, "x", "u", 3⟩]).Perm
      ([⟨some 9, "u", "g", 1, "a"⟩] ++
        ([⟨"gasto", 1, "x", "u", 3⟩] : List Transaccion).map transaccionARegistro) := by
  constructor
  · exact (c6_amended [] [⟨"gasto", 1, "x", "u", 3⟩]).2.1 (by decide)
  · exact (c6_amended [⟨some 9, "u", "g", 1, "a"⟩] [⟨"gasto", 1, "x", "u", 3⟩]).1

theorem mem_eliminarGastoStart {ahoraQ : ℚ} {almacen : List Registro} {j : ℕ} {e : Registro}
    (h : (j, e) ∈ eliminarGastoStart ahoraQ almacen) : almacen[j]? = some e := by
  unfold eliminarGastoStart at h
  have h2 := (List.mem_insertionSort leFechaDesc).mp h
  have h3 := (List.mem_filter.mp h2).1
  have h4 := mem_enumera 0 almacen j e h3
  simpa using h4.2

/-- C7: when the store did not change between listing and confirming,
choosing number `n` deletes exactly the entry shown at position `n` of the
filtered last-30-days date-descending view: the frozen index of that view
position addresses that very entry in the full store, the store becomes
the original with just that one position removed (every other row,
including rows outside the window, untouched), and the removed entry's
data is returned for the confirmation display. -/
theorem c7_eliminacion_consistente (ahoraQ : ℚ) (almacen : List Registro) (n : ℤ)
    (idx : ℕ) (e : Registro)
    (h1 : 1 ≤ n)
    (h2 : (eliminarGastoStart ahoraQ almacen)[(n - 1).toNat]? = some (idx, e)) :
    eliminarGastoConfirmar ((eliminarGastoStart ahoraQ almacen).map Prod.fst) n almacen
        = .eliminado e (almacen.take idx ++ almacen.drop (idx + 1)) ∧
    almacen[idx]? = some e := by
  have hmem : (idx, e) ∈ eliminarGastoStart ahoraQ almacen := List.getElem?_mem h2
  have halm : almacen[idx]? = some e := mem_eliminarGastoStart hmem
  have hlen : (n - 1).toNat < (eliminarGastoStart ahoraQ almacen).length :=
    lt_length_de_getElem? h2
  have hn : n ≤ (((eliminarGastoStart ahoraQ almacen).map Prod.fst).length : ℤ) := by
    rw [List.length_map]
    omega
  have hidx : ((eliminarGastoStart ahoraQ almacen).map Prod.fst)[(n - 1).toNat]? = some idx := by
    rw [List.getElem?_map, h2]
    rfl
  refine ⟨?_, halm⟩
  unfold eliminarGastoConfirmar
  rw [if_pos ⟨h1, hn⟩, hidx]
  simp [halm, List.eraseIdx_eq_take_drop_succ]

/-- Witness store for C7: five rows — three in the 30-day window, one too
old, one with an unreadable date. -/
def almacenC7 : List Registro :=
  [⟨some 95, "u", "gasto", 5, "pan"⟩, ⟨some 99, "u", "gasto", 7, "taxi"⟩,
   ⟨some 40, "u", "gasto", 3, "viejo"⟩, ⟨none, "u", "gasto", 11, "nat"⟩,
   ⟨some 98, "u", "compra", 2, "cafe"⟩]

/-- Witness for C7: with "now" at day 100, selection #1 of the listed view
(the day-99 entry, original position 1) deletes exactly that row. -/
theorem c7_testigo :
    eliminarGastoConfirmar ((eliminarGastoStart 100 almacenC7).map Prod.fst) 1 almacenC7
        = .eliminado ⟨some 99, "u", "gasto", 7, "taxi"⟩
            (almacenC7.take 1 ++ almacenC7.drop 2) ∧
    almacenC7[1]? = some ⟨some 99, "u", "gasto", 7, "taxi"⟩ :=
  c7_eliminacion_consistente 100 almacenC7 1 1 ⟨some 99, "u", "gasto", 7, "taxi"⟩
    (by decide) (by decide)

theorem procesaLinea_inl {a : Ahora} {u : String} {i : ℕ} {l : List Char}
    {t : Transaccion} (h : procesaLinea a u i l = .inl t) :
    0 < t.monto ∧ t.tipo = "gasto" := by
  unfold procesaLinea at h
  split at h
  · exact Sum.noConfusion h
  · split at h
    · exact Sum.noConfusion h
    · split at h
      · exact Sum.noConfusion h
      · next hpos =>
          dsimp only [] at h
          split at h
          · exact Sum.noConfusion h
          · obtain rfl := Sum.inl.inj h
            exact ⟨lt_of_not_le hpos, rfl⟩

/-- C5: the spec claims every extracted entry, in narrative mode too, has
a strictly positive amount.  Structured mode does check positivity, but
`procesar_texto_audio` performs no such check: the narrative statement
"gaste 0 en cafe" yields an entry whose amount is 0. -/
theorem c5_contraejemplo :
    (procesarTextoAudio 7 ("gaste 0 en cafe") ("Ana")).map Transaccion.monto = [0] ∧
    ¬ (∀ t ∈ procesarTextoAudio 7 ("gaste 0 en cafe") ("Ana"), 0 < t.monto) := by
  refine ⟨by decide, by decide⟩

/-- C5 (amended): structured-mode extraction only emits entries with
amount > 0 (non-positive parses are turned into per-line errors), while
narrative-mode extraction guarantees only amount ≥ 0 — the matched amount
string is unsigned, so negative amounts are impossible, but zero amounts
pass through unchecked. -/
theorem c5_amended (a : Ahora) (usuario texto : String) (aq : ℚ) (texto2 usuario2 : String) :
    (∀ t ∈ (procesaMensaje a usuario texto).1, 0 < t.monto) ∧
    (∀ t ∈ procesarTextoAudio aq texto2 usuario2, 0 ≤ t.monto) := by
  constructor
  · intro t ht
    rw [(c8_lineas_independientes a usuario texto).1] at ht
    obtain ⟨p, _, hp⟩ := List.mem_filterMap.mp ht
    rcases hpl : procesaLinea a usuario p.1 p.2 with t2 | e2
    · rw [hpl] at hp
      obtain rfl := Option.some.inj hp
      exact (procesaLinea_inl hpl).1
    · rw [hpl] at hp
      exact Option.noConfusion hp
  · intro t ht
    unfold procesarTextoAudio at ht
    dsimp only [] at ht
    split at ht
    · exact absurd ht (List.not_mem_nil t)
    · obtain ⟨m, _, hmk⟩ := List.mem_filterMap.mp ht
      rcases hq : limpiarMontoAudio m.cantidad with _ | q
      · rw [hq] at hmk
        exact Option.noConfusion hmk
      · rw [hq] at hmk
        obtain rfl := Option.some.inj hmk
        unfold limpiarMontoAudio at hq
        exact floatPy_noNeg hq

/-- Witness for C5 (amended): a structured entry of amount 50 and a
narrative entry of amount 0, at concrete inputs. -/
theorem c5_amended_testigo : (0 : ℚ) < 50 ∧ (0 : ℚ) ≤ 0 := by
  constructor
  · exact (c5_amended ⟨2026, 10, 12, 1/3⟩ ("P") ("50 en cafe") 7 ("gaste 0 en x") ("A")).1
      ⟨"gasto", 50, "Cafe", "P", (numeroDia 2026 10 12 : ℚ) + 1/2⟩ (by decide)
  · exact (c5_amended ⟨2026, 10, 12, 1/3⟩ ("P") ("50 en cafe") 7 ("gaste 0 en x") ("A")).2
      ⟨"gasto", 0, "En x", "A", 7⟩ (by decide)

theorem pruebaVerbo_descompone {prev : Option Char} {l resto : List Char} {v v2 : Verbo}
    (h : pruebaVerbo prev l v = some (v2, resto)) :
    v2 = v ∧ l = letrasVerbo v ++ resto := by
  unfold pruebaVerbo at h
  dsimp only [] at h
  split at h
  · next hcond =>
      simp only [Option.some.injEq, Prod.mk.injEq] at h
      simp only [Bool.and_eq_true, decide_eq_true_eq] at hcond
      refine ⟨h.1.symm, ?_⟩
      rw [← h.2]
      conv_lhs => rw [← List.take_append_drop (letrasVerbo v).length l]
      rw [hcond.1.2]
  · exact Option.noConfusion h

theorem verboAqui_descompone {prev : Option Char} {l resto : List Char} {v : Verbo}
    (h : verboAqui prev l = some (v, resto)) : l = letrasVerbo v ++ resto := by
  unfold verboAqui at h
  split at h
  · next r hr =>
      obtain rfl := Option.some.inj h
      obtain ⟨hv, hl⟩ := pruebaVerbo_descompone hr
      rw [hv]
      exact hl
  · obtain ⟨hv, hl⟩ := pruebaVerbo_descompone h
    rw [hv]
    exact hl

theorem buscaVerbo_descompone {v : Verbo} {resto : List Char} :
    ∀ {l : List Char} {prev : Option Char}, buscaVerbo prev l = some (v, resto) →
      ∃ pre, l = pre ++ letrasVerbo v ++ resto := by
  intro l
  induction l with
  | nil => intro prev h; exact absurd h (by simp [buscaVerbo])
  | cons c cs ih =>
      intro prev h
      unfold buscaVerbo at h
      split at h
      · next r hr =>
          obtain rfl := Option.some.inj h
          exact ⟨[], verboAqui_descompone hr⟩
      · obtain ⟨pre, hpre⟩ := ih h
        exact ⟨c :: pre, by simp [hpre]⟩

theorem divideEnVerbo_descompone {v : Verbo} {resto2 : List Char} :
    ∀ {l : List Char} {prev : Option Char} {d : List Char},
      divideEnVerbo prev l = (d, some (v, resto2)) →
        l = d ++ letrasVerbo v ++ resto2 := by
  intro l
  induction l with
  | nil =>
      intro prev d h
      unfold divideEnVerbo at h
      rw [Prod.mk.injEq] at h
      exact absurd h.2 (by simp)
  | cons c cs ih =>
      intro prev d h
      unfold divideEnVerbo at h
      split at h
      · next r hr =>
          rw [Prod.mk.injEq] at h
          obtain ⟨rfl, hsnd⟩ := h
          obtain rfl := Option.some.inj hsnd
          simpa using verboAqui_descompone hr
      · rcases hdv : divideEnVerbo (some c) cs with ⟨d2, s2⟩
        rw [hdv, Prod.mk.injEq] at h
        obtain ⟨rfl, rfl⟩ := h
        have hd2 := ih hdv
        simp [hd2]

theorem desdeUltimoSeparador_sufijo :
    ∀ {l r : List Char}, desdeUltimoSeparador l = some r → ∃ pre, l = pre ++ r := by
  intro l
  induction l with
  | nil => intro r h; exact absurd h (by simp [desdeUltimoSeparador])
  | cons c cs ih =>
      intro r h
      unfold desdeUltimoSeparador at h
      split at h
      · next r2 hr2 =>
          obtain rfl := Option.some.inj h
          obtain ⟨pre, hpre⟩ := ih hr2
          exact ⟨c :: pre, by simp [hpre]⟩
      · split at h
        · obtain rfl := Option.some.inj h
          exact ⟨[], rfl⟩
        · exact Option.noConfusion h

theorem tomaCantidad_sufijo {resto cant despues : List Char}
    (h : tomaCantidad resto = some (cant, despues)) :
    ∃ pre, resto = pre ++ despues := by
  unfold tomaCantidad at h
  split at h
  · dsimp only [] at h
    have h2 := Option.some.inj h
    rw [Prod.mk.injEq] at h2
    obtain ⟨-, rfl⟩ := h2
    refine ⟨resto.takeWhile (fun c => ! c.isDigit) ++
      (resto.dropWhile (fun c => ! c.isDigit)).take
        ((resto.dropWhile (fun c => ! c.isDigit)).takeWhile claseMonto).length, ?_⟩
    rw [List.append_assoc, List.take_append_drop, List.takeWhile_append_dropWhile]
  · split at h
    · next desde hdesde =>
        dsimp only [] at h
        have h2 := Option.some.inj h
        rw [Prod.mk.injEq] at h2
        obtain ⟨-, rfl⟩ := h2
        obtain ⟨pre, hpre⟩ := desdeUltimoSeparador_sufijo hdesde
        refine ⟨pre ++ desde.take ((desde.takeWhile claseMonto).length), ?_⟩
        rw [List.append_assoc, List.take_append_drop, ← hpre]
    · exact Option.noConfusion h

theorem escanea_verbo {m : Coincidencia} :
    ∀ {fuel : ℕ} {v : Verbo} {resto : List Char}, m ∈ escanea fuel v resto →
      m.verbo = v ∨ ∃ pre post, resto = pre ++ letrasVerbo m.verbo ++ post := by
  intro fuel
  induction fuel with
  | zero => intro v resto h; exact absurd h (List.not_mem_nil m)
  | succ fuel ih =>
      intro v resto h
      unfold escanea at h
      split at h
      · exact absurd h (List.not_mem_nil m)
      · next cant despues htc =>
          split at h
          · next descr hdv =>
              rcases List.mem_singleton.mp h with rfl
              exact Or.inl rfl
          · next descr v2 resto2 hdv =>
              rcases List.mem_cons.mp h with rfl | hm
              · exact Or.inl rfl
              · right
                obtain ⟨pre0, hpre0⟩ := tomaCantidad_sufijo htc
                have hdesp : despues = descr ++ letrasVerbo v2 ++ resto2 :=
                  divideEnVerbo_descompone hdv
                rcases ih hm with hv2 | ⟨pre, post, hpp⟩
                · refine ⟨pre0 ++ descr, resto2, ?_⟩
                  rw [hpre0, hdesp, hv2]
                  simp [List.append_assoc]
                · refine ⟨pre0 ++ descr ++ letrasVerbo v2 ++ pre, post, ?_⟩
                  rw [hpre0, hdesp, hpp]
                  simp [List.append_assoc]

/-- C10: every structured-mode entry has kind `"gasto"` regardless of the
line's wording; narrative-mode entries are `"gasto"` or `"compra"`, and a
`"compra"` entry can only arise when the trigger verb `compre` occurs in
the normalized text (narrative mode with the `compre` trigger), as the
concrete transcript in the last conjunct exhibits. -/
theorem c10_tipos :
    (∀ (a : Ahora) (usuario texto : String), ∀ t ∈ (procesaMensaje a usuario texto).1,
        t.tipo = "gasto") ∧
    (∀ (aq : ℚ) (texto usuario : String), ∀ t ∈ procesarTextoAudio aq texto usuario,
        t.tipo = "gasto" ∨ t.tipo = "compra") ∧
    (∀ (aq : ℚ) (texto usuario : String), ∀ t ∈ procesarTextoAudio aq texto usuario,
        t.tipo = "compra" →
          ∃ pre post, normalizarTexto texto = pre ++ ("compre").toList ++ post) ∧
    (procesarTextoAudio 7 ("compre 80 en flores") ("Ana")).map Transaccion.tipo
      = ["compra"] := by
  have hmem : ∀ (aq : ℚ) (texto usuario : String), ∀ t ∈ procesarTextoAudio aq texto usuario,
      ∃ (v0 : Verbo) (resto : List Char) (m : Coincidencia),
        buscaVerbo none (normalizarTexto texto) = some (v0, resto) ∧
        m ∈ escanea (resto.length + 1) v0 resto ∧
        t.tipo = (match m.verbo with | Verbo.compre => "compra" | Verbo.gaste => "gasto") := by
    intro aq texto usuario t ht
    unfold procesarTextoAudio at ht
    dsimp only [] at ht
    split at ht
    · exact absurd ht (List.not_mem_nil t)
    · next v0 resto hbv =>
        obtain ⟨m, hm, hmk⟩ := List.mem_filterMap.mp ht
        refine ⟨v0, resto, m, hbv, hm, ?_⟩
        rcases hq : limpiarMontoAudio m.cantidad with _ | q
        · rw [hq] at hmk
          exact Option.noConfusion hmk
        · rw [hq] at hmk
          obtain rfl := Option.some.inj hmk
          rfl
  refine ⟨?_, ?_, ?_, by decide⟩
  · intro a usuario texto t ht
    rw [(c8_lineas_independientes a usuario texto).1] at ht
    obtain ⟨p, _, hp⟩ := List.mem_filterMap.mp ht
    rcases hpl : procesaLinea a usuario p.1 p.2 with t2 | e2
    · rw [hpl] at hp
      obtain rfl := Option.some.inj hp
      exact (procesaLinea_inl hpl).2
    · rw [hpl] at hp
      exact Option.noConfusion hp
  · intro aq texto usuario t ht
    obtain ⟨v0, resto, m, _, _, htipo⟩ := hmem aq texto usuario t ht
    rcases hmv : m.verbo with _ | _
    · rw [hmv] at htipo
      exact Or.inr htipo
    · rw [hmv] at htipo
      exact Or.inl htipo
  · intro aq texto usuario t ht hcompra
    obtain ⟨v0, resto, m, hbv, hm, htipo⟩ := hmem aq texto usuario t ht
    have hverbo : m.verbo = Verbo.compre := by
      rcases hmv : m.verbo with _ | _
      · rfl
      · rw [hmv] at htipo
        rw [htipo] at hcompra
        exact absurd hcompra (by decide)
    have hletras : letrasVerbo Verbo.compre = ("compre").toList := by decide
    rcases escanea_verbo hm with hv0 | ⟨pre, post, hpp⟩
    · rw [hverbo] at hv0
      obtain ⟨pre, hpre⟩ := buscaVerbo_descompone (hv0 ▸ hbv)
      exact ⟨pre, resto, by rw [← hletras]; exact hpre⟩
    · rw [hverbo] at hpp
      obtain ⟨pre0, hpre0⟩ := buscaVerbo_descompone hbv
      refine ⟨pre0 ++ letrasVerbo v0 ++ pre, post, ?_⟩
      rw [hpre0, hpp, ← hletras]
      simp [List.append_assoc]

/-- Witness for C10, at a concrete narrative transcript. -/
theorem c10_testigo :
    ∃ pre post, normalizarTexto ("compre 80 en flores")
      = pre ++ ("compre").toList ++ post :=
  c10_tipos.2.2.1 7 ("compre 80 en flores") ("Ana")
    ⟨"compra", 80, "En flores", "Ana", 7⟩ (by decide) (by decide)

theorem mem_gastosSemanaDf {inicio : ℚ} {df : List Registro} {r : Registro} :
    r ∈ gastosSemanaDf inicio df ↔
      r ∈ df ∧ ∃ f, r.fecha = some f ∧ inicio ≤ f ∧ tipoContable r = true := by
  unfold gastosSemanaDf
  rw [List.mem_filter, List.mem_filter]
  constructor
  · rintro ⟨⟨hdf, hsome⟩, hcond⟩
    rcases hf : r.fecha with _ | f
    · rw [hf] at hsome
      exact absurd hsome (by simp)
    · rw [Bool.and_eq_true, decide_eq_true_eq] at hcond
      refine ⟨hdf, f, rfl, ?_, hcond.2⟩
      have h2 := hcond.1
      rw [hf] at h2
      simpa using h2
  · rintro ⟨hdf, f, hf, hle, htc⟩
    refine ⟨⟨hdf, by rw [hf]; rfl⟩, ?_⟩
    rw [Bool.and_eq_true, decide_eq_true_eq]
    exact ⟨by rw [hf]; simpa using hle, htc⟩

theorem mem_gastosMesDf {inicio fin : ℚ} {df : List Registro} {r : Registro} :
    r ∈ gastosMesDf inicio fin df ↔
      r ∈ df ∧ ∃ f, r.fecha = some f ∧ inicio ≤ f ∧ f < fin ∧ tipoContable r = true := by
  unfold gastosMesDf
  rw [List.mem_filter, List.mem_filter]
  constructor
  · rintro ⟨⟨hdf, hsome⟩, hcond⟩
    rcases hf : r.fecha with _ | f
    · rw [hf] at hsome
      exact absurd hsome (by simp)
    · simp only [Bool.and_eq_true, decide_eq_true_eq, hf, Option.getD_some] at hcond
      exact ⟨hdf, f, rfl, hcond.1.1, hcond.1.2, hcond.2⟩
  · rintro ⟨hdf, f, hf, hle, hlt, htc⟩
    refine ⟨⟨hdf, by rw [hf]; rfl⟩, ?_⟩
    simp only [Bool.and_eq_true, decide_eq_true_eq, hf, Option.getD_some]
    exact ⟨⟨hle, hlt⟩, htc⟩

theorem mem_detallesReporte {l : List Registro} {p : List Char × ℚ × String}
    (h : p ∈ detallesReporte l) :
    p.2 = resumenGrupo l p.1 ∧ p.1 ∈ l.map descNorm := by
  unfold detallesReporte at h
  have h2 := (List.mem_insertionSort leMontoDesc).mp h
  obtain ⟨k, hk, hpk⟩ := List.mem_map.mp h2
  unfold clavesGrupo at hk
  have hk2 := List.mem_dedup.mp ((List.mem_insertionSort leClave).mp hk)
  rw [← hpk]
  exact ⟨rfl, hk2⟩

theorem clave_en_detalles {l : List Registro} {r : Registro} (h : r ∈ l) :
    ∃ p ∈ detallesReporte l, p.1 = descNorm r := by
  refine ⟨(descNorm r, resumenGrupo l (descNorm r)), ?_, rfl⟩
  unfold detallesReporte
  rw [List.mem_insertionSort]
  apply List.mem_map_of_mem
  unfold clavesGrupo
  rw [List.mem_insertionSort, List.mem_dedup]
  exact List.mem_map_of_mem descNorm h

/-- C9: the spec claims the aggregator includes only entries dated within
`[window_start, now]`, excluding entries after "now".  The weekly filter
has no upper bound at all: with "now" at day 1000 and the week starting at
day 997, an entry dated day 1010 — ten days in the future — is included. -/
theorem c9_contraejemplo :
    gastosSemanaDf 997 [⟨some 1010, "u", "gasto", 5, "futuro"⟩]
      = [⟨some 1010, "u", "gasto", 5, "futuro"⟩] ∧
    ((997 : ℚ) ≤ 1000) ∧ ((1000 : ℚ) < 1010) := by
  refine ⟨by decide, by decide, by decide⟩

/-- C9 (amended): the weekly aggregator includes exactly the rows with a
valid date on or after the window start whose kind lower-cases to `gasto`
or `compra` — with no upper bound at "now"; the monthly aggregator is
additionally bounded above by the start of the next month, again not by
"now".  The returned total is the sum over the included rows, and the
breakdown maps each normalized description that occurs to its summed
amount plus the first matching row's original-case description, sorted by
summed amount descending, covering every included row's key. -/
theorem c9_amended (inicio fin : ℚ) (df : List Registro) :
    (∀ r : Registro, r ∈ gastosSemanaDf inicio df ↔
        r ∈ df ∧ ∃ f, r.fecha = some f ∧ inicio ≤ f ∧ tipoContable r = true) ∧
    (∀ r : Registro, r ∈ gastosMesDf inicio fin df ↔
        r ∈ df ∧ ∃ f, r.fecha = some f ∧ inicio ≤ f ∧ f < fin ∧ tipoContable r = true) ∧
    (gastoSemanal inicio df).1 = ((gastosSemanaDf inicio df).map Registro.monto).sum ∧
    (gastoSemanal inicio df).2.Sorted leMontoDesc ∧
    (∀ p ∈ (gastoSemanal inicio df).2,
        p.2 = resumenGrupo (gastosSemanaDf inicio df) p.1 ∧
        ∃ r ∈ gastosSemanaDf inicio df, descNorm r = p.1) ∧
    (∀ r ∈ gastosSemanaDf inicio df,
        ∃ p ∈ (gastoSemanal inicio df).2, p.1 = descNorm r) := by
  refine ⟨fun r => mem_gastosSemanaDf, fun r => mem_gastosMesDf, rfl,
    List.sorted_insertionSort leMontoDesc _, ?_, ?_⟩
  · intro p hp
    obtain ⟨h1, h2⟩ := mem_detallesReporte hp
    obtain ⟨r, hr, hrn⟩ := List.mem_map.mp h2
    exact ⟨h1, r, hr, hrn⟩
  · intro r hr
    exact clave_en_detalles hr

/-- Witness for C9 (amended): a concrete in-window row is included. -/
theorem c9_testigo :
    (⟨some 5, "u", "gasto", 7, "Cafe"⟩ : Registro) ∈
      gastosSemanaDf 3 [⟨some 5, "u", "gasto", 7, "Cafe"⟩] :=
  ((c9_amended 3 10 [⟨some 5, "u", "gasto", 7, "Cafe"⟩]).1
    ⟨some 5, "u", "gasto", 7, "Cafe"⟩).mpr
    ⟨by decide, 5, rfl, by decide, by decide⟩
